import Mathlib

/-!
Shallow embedding of the solar-potential estimation app (Svelte/TypeScript) and
verification of its specification claims.  Numeric values are modelled as exact
rationals (`ℚ`); JavaScript arrays as `List`; `undefined` as `Option.none`.
Each definition is translated from the corresponding source function; the
source file and symbol are named in the doc comments.
-/

namespace Andreado

/-! ### Generic helper: JavaScript Array.prototype.findIndex

`arr.findIndex(pred)` scans indices `0, 1, …, arr.length - 1` and returns the
first index satisfying the predicate.  `firstIdx pred n` models that scan over
the index range `[0, n)`, returning `none` when no index qualifies. -/

def firstIdxFrom (pred : ℕ → Bool) : ℕ → ℕ → Option ℕ
  | _, 0 => none
  | start, n + 1 => if pred start then some start else firstIdxFrom pred (start + 1) n

def firstIdx (pred : ℕ → Bool) (n : ℕ) : Option ℕ :=
  firstIdxFrom pred 0 n

theorem firstIdxFrom_eq_some_iff (pred : ℕ → Bool) :
    ∀ (n start i : ℕ), firstIdxFrom pred start n = some i ↔
      start ≤ i ∧ i < start + n ∧ pred i = true ∧
        ∀ j, start ≤ j → j < i → pred j = false := by
  intro n
  induction n with
  | zero =>
    intro start i
    constructor
    · intro h; simp [firstIdxFrom] at h
    · rintro ⟨h1, h2, -, -⟩; omega
  | succ n ih =>
    intro start i
    cases hps : pred start with
    | true =>
      constructor
      · intro h
        simp only [firstIdxFrom, hps] at h
        simp at h
        subst h
        exact ⟨le_refl _, by omega, hps, fun j hj hj2 => absurd hj2 (by omega)⟩
      · rintro ⟨h1, h2, h3, h4⟩
        have heq : start = i := by
          by_contra hne
          have hlt : start < i := lt_of_le_of_ne h1 hne
          have hfalse := h4 start (le_refl _) hlt
          rw [hps] at hfalse
          exact Bool.noConfusion hfalse
        subst heq
        simp [firstIdxFrom, hps]
    | false =>
      have key := ih (start + 1) i
      constructor
      · intro h
        simp only [firstIdxFrom, hps] at h
        simp at h
        rcases key.mp h with ⟨h1, h2, h3, h4⟩
        refine ⟨by omega, by omega, h3, ?_⟩
        intro j hj hj2
        rcases Nat.eq_or_lt_of_le hj with heq | hlt
        · rw [← heq]; exact hps
        · exact h4 j hlt hj2
      · rintro ⟨h1, h2, h3, h4⟩
        have hne : start ≠ i := by
          intro heq
          rw [← heq] at h3
          rw [hps] at h3
          exact Bool.noConfusion h3
        have hrec : firstIdxFrom pred (start + 1) n = some i :=
          key.mpr ⟨by omega, by omega, h3, fun j hj hj2 => h4 j (by omega) hj2⟩
        simp [firstIdxFrom, hps, hrec]

theorem firstIdxFrom_eq_none_iff (pred : ℕ → Bool) :
    ∀ (n start : ℕ), firstIdxFrom pred start n = none ↔
      ∀ j, start ≤ j → j < start + n → pred j = false := by
  intro n
  induction n with
  | zero =>
    intro start
    constructor
    · intro _ j hj hj2; omega
    · intro _; rfl
  | succ n ih =>
    intro start
    cases hps : pred start with
    | true =>
      constructor
      · intro h; simp [firstIdxFrom, hps] at h
      · intro hall
        have hfalse := hall start (le_refl _) (by omega)
        rw [hps] at hfalse
        exact Bool.noConfusion hfalse
    | false =>
      have key := ih (start + 1)
      constructor
      · intro h
        simp only [firstIdxFrom, hps] at h
        simp at h
        intro j hj hj2
        rcases Nat.eq_or_lt_of_le hj with heq | hlt
        · rw [← heq]; exact hps
        · exact key.mp h j hlt (by omega)
      · intro hall
        have hrec : firstIdxFrom pred (start + 1) n = none :=
          key.mpr fun j hj hj2 => hall j (by omega) (by omega)
        simp [firstIdxFrom, hps, hrec]

theorem firstIdx_eq_some_iff (pred : ℕ → Bool) (n i : ℕ) :
    firstIdx pred n = some i ↔
      i < n ∧ pred i = true ∧ ∀ j, j < i → pred j = false := by
  unfold firstIdx
  rw [firstIdxFrom_eq_some_iff]
  constructor
  · intro ⟨_, h2, h3, h4⟩
    exact ⟨by omega, h3, fun j hj => h4 j (Nat.zero_le _) hj⟩
  · intro ⟨h1, h2, h3⟩
    exact ⟨Nat.zero_le _, by omega, h2, fun j _ hj => h3 j hj⟩

theorem firstIdx_eq_none_iff (pred : ℕ → Bool) (n : ℕ) :
    firstIdx pred n = none ↔ ∀ j, j < n → pred j = false := by
  unfold firstIdx
  rw [firstIdxFrom_eq_none_iff]
  constructor
  · intro hall j hj; exact hall j (Nat.zero_le _) (by omega)
  · intro hall j _ hj; exact hall j (by omega)

/-! ### Generic helper: JavaScript Array.prototype.map with index

`arr.map((x, i) => f(i, x))`; the counter argument carries the current
index. -/

def mapWithIndex {α β : Type} (f : ℕ → α → β) : ℕ → List α → List β
  | _, [] => []
  | i, x :: xs => f i x :: mapWithIndex f (i + 1) xs

def jsMapIdx {α β : Type} (f : ℕ → α → β) (l : List α) : List β :=
  mapWithIndex f 0 l

theorem mapWithIndex_length {α β : Type} (f : ℕ → α → β) :
    ∀ (l : List α) (i : ℕ), (mapWithIndex f i l).length = l.length := by
  intro l
  induction l with
  | nil => intro i; rfl
  | cons x xs ih => intro i; simp [mapWithIndex, ih]

theorem mapWithIndex_getElem? {α β : Type} (f : ℕ → α → β) :
    ∀ (l : List α) (i j : ℕ), (mapWithIndex f i l)[j]? = Option.map (f (i + j)) l[j]? := by
  intro l
  induction l with
  | nil => intro i j; simp [mapWithIndex]
  | cons x xs ih =>
    intro i j
    cases j with
    | zero => simp [mapWithIndex]
    | succ j =>
      simp only [mapWithIndex, List.getElem?_cons_succ, ih (i + 1) j]
      have harith : i + 1 + j = i + (j + 1) := by omega
      rw [harith]

theorem jsMapIdx_length {α β : Type} (f : ℕ → α → β) (l : List α) :
    (jsMapIdx f l).length = l.length :=
  mapWithIndex_length f l 0

theorem jsMapIdx_getElem? {α β : Type} (f : ℕ → α → β) (l : List α) (j : ℕ) :
    (jsMapIdx f l)[j]? = Option.map (f j) l[j]? := by
  rw [jsMapIdx, mapWithIndex_getElem?, Nat.zero_add]

/-! ### Data model

`SolarPanelConfig`, from `src/routes/solar.ts` (the Solar API data type used
throughout): a panel count together with its yearly DC energy yield. -/

structure SolarPanelConfig where
  panelsCount : ℕ
  yearlyEnergyDcKwh : ℚ
  deriving DecidableEq

/-! ### Financial projection engine

Translated from the reactive calculation block of
`SolarPotentialSection.svelte` (`src/routes/sections/Sections.svelte`
lines 264-341 of the combined file, identical in `src/unnamed/part_004`),
and from `PDFDownloadButton.svelte` (`LanguageSwitcher.svelte` lines 129-175
of the combined file), which restates the same formulas for the PDF export.
The tunable inputs are gathered in one parameter record. -/

structure FinParams where
  monthlyAverageEnergyBill : ℚ
  energyCostPerKwh : ℚ
  panelCapacityWatts : ℚ
  defaultPanelCapacityWatts : ℚ
  solarIncentivesPercent : ℚ
  installationCostPerWatt : ℚ
  installationLifeSpan : ℕ
  dcToAcDerate : ℚ
  efficiencyDepreciationFactor : ℚ
  costIncreaseFactor : ℚ
  discountRate : ℚ
  deriving DecidableEq

/-- Source: `installationSizeKw = (solarPanelConfigs[configId].panelsCount * panelCapacityWattsInput) / 1000`. -/
def installationSizeKw (cfg : SolarPanelConfig) (p : FinParams) : ℚ :=
  cfg.panelsCount * p.panelCapacityWatts / 1000

/-- Source: `installationCostTotal = installationCostPerWatt * installationSizeKw * 1000`. -/
def installationCostTotal (cfg : SolarPanelConfig) (p : FinParams) : ℚ :=
  p.installationCostPerWatt * installationSizeKw cfg p * 1000

/-- Source: `monthlyKwhEnergyConsumption = monthlyAverageEnergyBillInput / energyCostPerKwhInput`. -/
def monthlyKwhEnergyConsumption (p : FinParams) : ℚ :=
  p.monthlyAverageEnergyBill / p.energyCostPerKwh

/-- Source: `yearlyKwhEnergyConsumption = monthlyKwhEnergyConsumption * 12`. -/
def yearlyKwhEnergyConsumption (p : FinParams) : ℚ :=
  monthlyKwhEnergyConsumption p * 12

/-- Source: `initialAcKwhPerYear = solarPanelConfigs[configId].yearlyEnergyDcKwh * panelCapacityRatio * dcToAcDerateInput`,
with `panelCapacityRatio = panelCapacityWattsInput / defaultPanelCapacityWatts` inlined. -/
def initialAcKwhPerYear (cfg : SolarPanelConfig) (p : FinParams) : ℚ :=
  cfg.yearlyEnergyDcKwh * (p.panelCapacityWatts / p.defaultPanelCapacityWatts) * p.dcToAcDerate

/-- Source: `yearlyProductionAcKwh = [...Array(installationLifeSpan).keys()].map(year => initialAcKwhPerYear * efficiencyDepreciationFactor ** year)`. -/
def yearlyProductionAcKwh (cfg : SolarPanelConfig) (p : FinParams) : List ℚ :=
  (List.range p.installationLifeSpan).map fun year =>
    initialAcKwhPerYear cfg p * p.efficiencyDepreciationFactor ^ year

/-- Source: `yearlyUtilityBillEstimates = yearlyProductionAcKwh.map((yearlyKwhEnergyProduced, year) => { const billEnergyKwh = yearlyKwhEnergyConsumption - yearlyKwhEnergyProduced; const billEstimate = (billEnergyKwh * energyCostPerKwhInput * costIncreaseFactor ** year) / discountRate ** year; return Math.max(billEstimate, 0); })`. -/
def yearlyUtilityBillEstimates (cfg : SolarPanelConfig) (p : FinParams) : List ℚ :=
  jsMapIdx (fun year yearlyKwhEnergyProduced =>
      max ((yearlyKwhEnergyConsumption p - yearlyKwhEnergyProduced) * p.energyCostPerKwh *
        p.costIncreaseFactor ^ year / p.discountRate ^ year) 0)
    (yearlyProductionAcKwh cfg p)

/-- Source: `remainingLifetimeUtilityBill = yearlyUtilityBillEstimates.reduce((x, y) => x + y, 0)`. -/
def remainingLifetimeUtilityBill (cfg : SolarPanelConfig) (p : FinParams) : ℚ :=
  (yearlyUtilityBillEstimates cfg p).sum

/-- Source: `totalCostWithSolar = installationCostTotal + remainingLifetimeUtilityBill - (installationCostTotal * solarIncentivesPercent)`. -/
def totalCostWithSolar (cfg : SolarPanelConfig) (p : FinParams) : ℚ :=
  installationCostTotal cfg p + remainingLifetimeUtilityBill cfg p -
    installationCostTotal cfg p * p.solarIncentivesPercent

/-- Source: `yearlyCostWithoutSolar = [...Array(installationLifeSpan).keys()].map(year => (monthlyAverageEnergyBillInput * 12 * costIncreaseFactor ** year) / discountRate ** year)`. -/
def yearlyCostWithoutSolar (p : FinParams) : List ℚ :=
  (List.range p.installationLifeSpan).map fun year =>
    p.monthlyAverageEnergyBill * 12 * p.costIncreaseFactor ^ year / p.discountRate ^ year

/-- Source: `totalCostWithoutSolar = yearlyCostWithoutSolar.reduce((x, y) => x + y, 0)`. -/
def totalCostWithoutSolar (p : FinParams) : ℚ :=
  (yearlyCostWithoutSolar p).sum

/-- Source: `savings = totalCostWithoutSolar - totalCostWithSolar`. -/
def savings (cfg : SolarPanelConfig) (p : FinParams) : ℚ :=
  totalCostWithoutSolar p - totalCostWithSolar cfg p

/-! ### Cumulative series and break-even year -/

/-- Models the JS accumulating map `let c = acc; xs.map(x => (c += x))`:
the list of running prefix sums starting from `acc`. -/
def runningSums (acc : ℚ) : List ℚ → List ℚ
  | [] => []
  | x :: xs => (acc + x) :: runningSums (acc + x) xs

/-- Screen-side accumulation from `SolarPotentialSection.svelte`
(chart callback): `costWithSolar += i == 0 ? billEstimate + installationCostTotal - (installationCostTotal * solarIncentivesPercent) : billEstimate`.
The net installation cost is charged only at index 0.  `i` is the map index
and `c` the running accumulator of the JS closure. -/
def accumWithSolar (inst inc : ℚ) : ℕ → ℚ → List ℚ → List ℚ
  | _, _, [] => []
  | i, c, b :: bs =>
    let c' := c + (if i = 0 then b + inst - inst * inc else b)
    c' :: accumWithSolar inst inc (i + 1) c' bs

/-- Source (`SolarPotentialSection.svelte`): `cumulativeCostsWithSolar`. -/
def cumulativeCostsWithSolar (cfg : SolarPanelConfig) (p : FinParams) : List ℚ :=
  accumWithSolar (installationCostTotal cfg p) p.solarIncentivesPercent 0 0
    (yearlyUtilityBillEstimates cfg p)

/-- Source (`SolarPotentialSection.svelte`): `cumulativeCostsWithoutSolar`,
`costWithoutSolar += cost`. -/
def cumulativeCostsWithoutSolar (p : FinParams) : List ℚ :=
  runningSums 0 (yearlyCostWithoutSolar p)

/-- Models `ws.findIndex((w, i) => w <= wos[i])`: the first index of `ws`
whose entry is `≤` the entry of `wos` at the same index (an out-of-range
access on `wos` yields `undefined` and the comparison is false), or `-1`. -/
def findIndexLe (ws wos : List ℚ) : ℤ :=
  match firstIdx (fun i =>
      match ws[i]?, wos[i]? with
      | some w, some o => decide (w ≤ o)
      | _, _ => false) ws.length with
  | some i => (i : ℤ)
  | none => -1

/-- Source (`SolarPotentialSection.svelte`): `breakEvenYear = cumulativeCostsWithSolar.findIndex((costWithSolar, i) => costWithSolar <= cumulativeCostsWithoutSolar[i])`. -/
def breakEvenYear (cfg : SolarPanelConfig) (p : FinParams) : ℤ :=
  findIndexLe (cumulativeCostsWithSolar cfg p) (cumulativeCostsWithoutSolar p)

/-- PDF-side accumulation from `PDFDownloadButton.svelte` (`handleDownload`):
`costWithSolar += billEstimate + installationCostTotal - (installationCostTotal * solarIncentivesPercent)`.
Unlike the screen-side series, the net installation cost is added at EVERY
index, not only at index 0. -/
def pdfAccumWithSolar (inst inc : ℚ) : ℚ → List ℚ → List ℚ
  | _, [] => []
  | c, b :: bs =>
    let c' := c + (b + inst - inst * inc)
    c' :: pdfAccumWithSolar inst inc c' bs

/-- Source (`PDFDownloadButton.svelte`): `cumulativeCostsWithSolar` as computed
for the PDF export. -/
def pdfCumulativeCostsWithSolar (cfg : SolarPanelConfig) (p : FinParams) : List ℚ :=
  pdfAccumWithSolar (installationCostTotal cfg p) p.solarIncentivesPercent 0
    (yearlyUtilityBillEstimates cfg p)

/-- Source (`PDFDownloadButton.svelte`): `breakEvenYear` as computed for the
PDF export. -/
def pdfBreakEvenYear (cfg : SolarPanelConfig) (p : FinParams) : ℤ :=
  findIndexLe (pdfCumulativeCostsWithSolar cfg p) (cumulativeCostsWithoutSolar p)

/-! ### Pointwise lemmas about the series -/

theorem length_yearlyProductionAcKwh (cfg : SolarPanelConfig) (p : FinParams) :
    (yearlyProductionAcKwh cfg p).length = p.installationLifeSpan := by
  simp [yearlyProductionAcKwh]

theorem length_yearlyUtilityBillEstimates (cfg : SolarPanelConfig) (p : FinParams) :
    (yearlyUtilityBillEstimates cfg p).length = p.installationLifeSpan := by
  rw [yearlyUtilityBillEstimates, jsMapIdx_length, length_yearlyProductionAcKwh]

theorem length_yearlyCostWithoutSolar (p : FinParams) :
    (yearlyCostWithoutSolar p).length = p.installationLifeSpan := by
  simp [yearlyCostWithoutSolar]

theorem yearlyProductionAcKwh_getElem? (cfg : SolarPanelConfig) (p : FinParams) (y : ℕ)
    (h : y < p.installationLifeSpan) :
    (yearlyProductionAcKwh cfg p)[y]? =
      some (initialAcKwhPerYear cfg p * p.efficiencyDepreciationFactor ^ y) := by
  simp [yearlyProductionAcKwh, List.getElem?_map, List.getElem?_range, h]

theorem yearlyUtilityBillEstimates_getElem? (cfg : SolarPanelConfig) (p : FinParams) (y : ℕ)
    (h : y < p.installationLifeSpan) :
    (yearlyUtilityBillEstimates cfg p)[y]? =
      some (max ((yearlyKwhEnergyConsumption p -
          initialAcKwhPerYear cfg p * p.efficiencyDepreciationFactor ^ y) *
        p.energyCostPerKwh * p.costIncreaseFactor ^ y / p.discountRate ^ y) 0) := by
  rw [yearlyUtilityBillEstimates, jsMapIdx_getElem?, yearlyProductionAcKwh_getElem? cfg p y h,
    Option.map_some']

theorem yearlyCostWithoutSolar_getElem? (p : FinParams) (y : ℕ)
    (h : y < p.installationLifeSpan) :
    (yearlyCostWithoutSolar p)[y]? =
      some (p.monthlyAverageEnergyBill * 12 * p.costIncreaseFactor ^ y / p.discountRate ^ y) := by
  simp [yearlyCostWithoutSolar, List.getElem?_map, List.getElem?_range, h]

/-! ### Cumulative-series lemmas -/

theorem runningSums_length (l : List ℚ) : ∀ acc : ℚ, (runningSums acc l).length = l.length := by
  induction l with
  | nil => intro acc; rfl
  | cons x xs ih => intro acc; simp [runningSums, ih]

theorem runningSums_getElem? (l : List ℚ) : ∀ (acc : ℚ) (y : ℕ), y < l.length →
    (runningSums acc l)[y]? = some (acc + (l.take (y + 1)).sum) := by
  induction l with
  | nil => intro acc y h; simp at h
  | cons x xs ih =>
    intro acc y h
    cases y with
    | zero => simp [runningSums]
    | succ y =>
      have hy : y < xs.length := by simpa using h
      simp only [runningSums, List.getElem?_cons_succ, ih (acc + x) y hy,
        List.take_succ_cons, List.sum_cons]
      congr 1
      ring

theorem accumWithSolar_length (inst inc : ℚ) (l : List ℚ) :
    ∀ (i : ℕ) (c : ℚ), (accumWithSolar inst inc i c l).length = l.length := by
  induction l with
  | nil => intro i c; rfl
  | cons b bs ih => intro i c; simp [accumWithSolar, ih]

theorem accumWithSolar_succ (inst inc : ℚ) (l : List ℚ) :
    ∀ (i : ℕ) (c : ℚ), accumWithSolar inst inc (i + 1) c l = runningSums c l := by
  induction l with
  | nil => intro i c; rfl
  | cons b bs ih =>
    intro i c
    simp only [accumWithSolar, runningSums, if_neg (Nat.succ_ne_zero i)]
    rw [ih (i + 1)]

/-- Net installation cost: the claim's phrase "installation cost minus the
incentive amount", as written in both accumulation loops. -/
def netInstallationCost (cfg : SolarPanelConfig) (p : FinParams) : ℚ :=
  installationCostTotal cfg p - installationCostTotal cfg p * p.solarIncentivesPercent

/-- Specification-side definition, following the words of the claim: the
cumulative cost-with-solar through year `y`, in which the net installation
cost is charged only in year 0. -/
def cumulativeWithSolarThrough (cfg : SolarPanelConfig) (p : FinParams) (y : ℕ) : ℚ :=
  netInstallationCost cfg p + ((yearlyUtilityBillEstimates cfg p).take (y + 1)).sum

/-- Specification-side definition: the cumulative cost-without-solar through
year `y`. -/
def cumulativeWithoutSolarThrough (p : FinParams) (y : ℕ) : ℚ :=
  ((yearlyCostWithoutSolar p).take (y + 1)).sum

theorem length_cumulativeCostsWithSolar (cfg : SolarPanelConfig) (p : FinParams) :
    (cumulativeCostsWithSolar cfg p).length = p.installationLifeSpan := by
  rw [cumulativeCostsWithSolar, accumWithSolar_length, length_yearlyUtilityBillEstimates]

theorem length_cumulativeCostsWithoutSolar (p : FinParams) :
    (cumulativeCostsWithoutSolar p).length = p.installationLifeSpan := by
  rw [cumulativeCostsWithoutSolar, runningSums_length, length_yearlyCostWithoutSolar]

theorem cumulativeCostsWithSolar_getElem? (cfg : SolarPanelConfig) (p : FinParams) (y : ℕ)
    (h : y < p.installationLifeSpan) :
    (cumulativeCostsWithSolar cfg p)[y]? = some (cumulativeWithSolarThrough cfg p y) := by
  have hbills : (yearlyUtilityBillEstimates cfg p).length = p.installationLifeSpan :=
    length_yearlyUtilityBillEstimates cfg p
  rw [cumulativeCostsWithSolar, cumulativeWithSolarThrough]
  cases hl : yearlyUtilityBillEstimates cfg p with
  | nil => rw [hl] at hbills; simp at hbills; omega
  | cons b bs =>
    have hlen : y < (b :: bs).length := by rw [← hl, hbills]; exact h
    simp only [accumWithSolar, if_pos rfl, if_true]
    rw [accumWithSolar_succ]
    cases y with
    | zero =>
      simp only [List.getElem?_cons_zero, List.take_succ_cons, List.take_zero,
        List.sum_cons, List.sum_nil, netInstallationCost]
      congr 1
      ring
    | succ y =>
      have hy : y < bs.length := by simpa using hlen
      simp only [List.getElem?_cons_succ, runningSums_getElem? bs _ y hy,
        List.take_succ_cons, List.sum_cons, netInstallationCost]
      congr 1
      ring

theorem cumulativeCostsWithoutSolar_getElem? (p : FinParams) (y : ℕ)
    (h : y < p.installationLifeSpan) :
    (cumulativeCostsWithoutSolar p)[y]? = some (cumulativeWithoutSolarThrough p y) := by
  have hlen : y < (yearlyCostWithoutSolar p).length := by
    rw [length_yearlyCostWithoutSolar]; exact h
  rw [cumulativeCostsWithoutSolar, cumulativeWithoutSolarThrough,
    runningSums_getElem? _ _ _ hlen, zero_add]

theorem findIndexLe_pred_iff (ws wos : List ℚ) (i : ℕ) :
    ((fun i =>
      match ws[i]?, wos[i]? with
      | some w, some o => decide (w ≤ o)
      | _, _ => false) i = true) ↔
      ∃ w o, ws[i]? = some w ∧ wos[i]? = some o ∧ w ≤ o := by
  cases hw : ws[i]? with
  | none => simp [hw]
  | some w =>
    cases ho : wos[i]? with
    | none => simp [hw, ho]
    | some o => simp [hw, ho]

theorem findIndexLe_pred_false (ws wos : List ℚ) (i : ℕ)
    (hfalse : (fun i =>
      match ws[i]?, wos[i]? with
      | some w, some o => decide (w ≤ o)
      | _, _ => false) i = false) :
    ¬ ∃ w o, ws[i]? = some w ∧ wos[i]? = some o ∧ w ≤ o := by
  intro hp
  have htrue := (findIndexLe_pred_iff ws wos i).mpr hp
  rw [hfalse] at htrue
  exact Bool.noConfusion htrue

theorem findIndexLe_eq_coe_iff (ws wos : List ℚ) (y : ℕ) :
    findIndexLe ws wos = (y : ℤ) ↔
      (∃ w o, ws[y]? = some w ∧ wos[y]? = some o ∧ w ≤ o) ∧
        ∀ z, z < y → ¬ ∃ w o, ws[z]? = some w ∧ wos[z]? = some o ∧ w ≤ o := by
  unfold findIndexLe
  cases hfi : firstIdx (fun i =>
      match ws[i]?, wos[i]? with
      | some w, some o => decide (w ≤ o)
      | _, _ => false) ws.length with
  | some j =>
    rw [firstIdx_eq_some_iff] at hfi
    obtain ⟨hjlen, hjpred, hjmin⟩ := hfi
    simp only
    constructor
    · intro hjy
      have hjy' : j = y := by omega
      subst hjy'
      exact ⟨(findIndexLe_pred_iff ws wos j).mp hjpred,
        fun z hz => findIndexLe_pred_false ws wos z (hjmin z hz)⟩
    · rintro ⟨hy, hmin⟩
      have hyj : j = y := by
        rcases Nat.lt_trichotomy j y with hlt | heq | hgt
        · exact absurd ((findIndexLe_pred_iff ws wos j).mp hjpred) (hmin j hlt)
        · exact heq
        · exact absurd hy (findIndexLe_pred_false ws wos y (hjmin y hgt))
      simp [hyj]
  | none =>
    rw [firstIdx_eq_none_iff] at hfi
    simp only
    constructor
    · intro h; omega
    · rintro ⟨⟨w, o, hw, ho, hle⟩, -⟩
      have hylen : y < ws.length := by
        by_contra hge
        rw [List.getElem?_eq_none (by omega)] at hw
        exact Option.noConfusion hw
      exact absurd ⟨w, o, hw, ho, hle⟩ (findIndexLe_pred_false ws wos y (hfi y hylen))

theorem findIndexLe_eq_neg_one_iff (ws wos : List ℚ) :
    findIndexLe ws wos = -1 ↔
      ∀ z, z < ws.length → ¬ ∃ w o, ws[z]? = some w ∧ wos[z]? = some o ∧ w ≤ o := by
  unfold findIndexLe
  cases hfi : firstIdx (fun i =>
      match ws[i]?, wos[i]? with
      | some w, some o => decide (w ≤ o)
      | _, _ => false) ws.length with
  | some j =>
    rw [firstIdx_eq_some_iff] at hfi
    obtain ⟨hjlen, hjpred, hjmin⟩ := hfi
    simp only
    constructor
    · intro h; omega
    · intro hall
      exact absurd ((findIndexLe_pred_iff ws wos j).mp hjpred) (hall j hjlen)
  | none =>
    rw [firstIdx_eq_none_iff] at hfi
    simp only
    constructor
    · intro _ z hz
      exact findIndexLe_pred_false ws wos z (hfi z hz)
    · intro _; trivial

theorem lt_length_of_getElem?_eq_some {α : Type} {l : List α} {y : ℕ} {a : α}
    (h : l[y]? = some a) : y < l.length := by
  by_contra hge
  rw [List.getElem?_eq_none (by omega)] at h
  exact Option.noConfusion h

/-- C4: for every projection, `breakEvenYear` is the smallest year index `y`
such that the cumulative cost-with-solar through year `y` (year 0 additionally
charging the net installation cost) is at most the cumulative
cost-without-solar through year `y`, and it is `-1` when no such year exists
within the installation lifespan. -/
theorem breakEvenYear_first_crossing (cfg : SolarPanelConfig) (p : FinParams) :
    (∀ y : ℕ, breakEvenYear cfg p = (y : ℤ) ↔
      y < p.installationLifeSpan ∧
        cumulativeWithSolarThrough cfg p y ≤ cumulativeWithoutSolarThrough p y ∧
        ∀ z, z < y → ¬ cumulativeWithSolarThrough cfg p z ≤ cumulativeWithoutSolarThrough p z) ∧
    (breakEvenYear cfg p = -1 ↔
      ∀ y, y < p.installationLifeSpan →
        ¬ cumulativeWithSolarThrough cfg p y ≤ cumulativeWithoutSolarThrough p y) := by
  have hex : ∀ y, y < p.installationLifeSpan →
      ((∃ w o, (cumulativeCostsWithSolar cfg p)[y]? = some w ∧
          (cumulativeCostsWithoutSolar p)[y]? = some o ∧ w ≤ o) ↔
        cumulativeWithSolarThrough cfg p y ≤ cumulativeWithoutSolarThrough p y) := by
    intro y hy
    rw [cumulativeCostsWithSolar_getElem? cfg p y hy, cumulativeCostsWithoutSolar_getElem? p y hy]
    constructor
    · rintro ⟨w, o, hw, ho, hle⟩
      rw [Option.some.inj hw, Option.some.inj ho]
      exact hle
    · intro hle
      exact ⟨_, _, rfl, rfl, hle⟩
  constructor
  · intro y
    rw [breakEvenYear, findIndexLe_eq_coe_iff]
    constructor
    · rintro ⟨hy, hmin⟩
      have hylen : y < p.installationLifeSpan := by
        obtain ⟨w, o, hw, -, -⟩ := hy
        have := lt_length_of_getElem?_eq_some hw
        rwa [length_cumulativeCostsWithSolar] at this
      refine ⟨hylen, (hex y hylen).mp hy, ?_⟩
      intro z hz hle
      exact hmin z hz ((hex z (by omega)).mpr hle)
    · rintro ⟨hylen, hle, hmin⟩
      refine ⟨(hex y hylen).mpr hle, ?_⟩
      intro z hz hcontra
      exact hmin z hz ((hex z (by omega)).mp hcontra)
  · rw [breakEvenYear, findIndexLe_eq_neg_one_iff, length_cumulativeCostsWithSolar]
    constructor
    · intro hall y hy hle
      exact hall y hy ((hex y hy).mpr hle)
    · intro hall y hy hcontra
      exact hall y hy ((hex y hy).mp hcontra)

/-- C5: for every year `y` in `[0, installationLifeSpan)`, the estimated
utility bill with solar equals
`max(0, (yearlyConsumption - production[y]) * costPerKwh * costIncreaseFactor^y / discountRate^y)`,
and every entry of the bill series is non-negative. -/
theorem yearlyUtilityBill_clamped_formula (cfg : SolarPanelConfig) (p : FinParams) (y : ℕ)
    (h : y < p.installationLifeSpan) :
    (∃ prod, (yearlyProductionAcKwh cfg p)[y]? = some prod ∧
      (yearlyUtilityBillEstimates cfg p)[y]? =
        some (max 0 ((yearlyKwhEnergyConsumption p - prod) * p.energyCostPerKwh *
          p.costIncreaseFactor ^ y / p.discountRate ^ y))) ∧
    ∀ b ∈ yearlyUtilityBillEstimates cfg p, 0 ≤ b := by
  constructor
  · refine ⟨_, yearlyProductionAcKwh_getElem? cfg p y h, ?_⟩
    rw [yearlyUtilityBillEstimates_getElem? cfg p y h, max_comm]
  · intro b hb
    obtain ⟨i, hi⟩ := List.mem_iff_getElem?.mp hb
    have hilen : i < p.installationLifeSpan := by
      have := lt_length_of_getElem?_eq_some hi
      rwa [length_yearlyUtilityBillEstimates] at this
    rw [yearlyUtilityBillEstimates_getElem? cfg p i hilen] at hi
    rw [← Option.some.inj hi]
    exact le_max_right _ _

/-- Concrete panel configuration used for evaluation: the sample
configuration from `pdfGenerator.test.ts` (`panelsCount` 10,
`yearlyEnergyDcKwh` 4000). -/
def testConfig : SolarPanelConfig := ⟨10, 4000⟩

/-- Concrete financial parameters: the application defaults (monthly bill
EUR 120, energy cost 0.30 EUR/kWh, 400 W panels with 400 W reference,
50 percent incentives, 2.50 EUR/W, 20 years, 0.85 derate, 0.995 yearly decay,
1.025 yearly cost increase, 1.03 discount rate). -/
def testParams : FinParams :=
  { monthlyAverageEnergyBill := 120
    energyCostPerKwh := 3/10
    panelCapacityWatts := 400
    defaultPanelCapacityWatts := 400
    solarIncentivesPercent := 1/2
    installationCostPerWatt := 5/2
    installationLifeSpan := 20
    dcToAcDerate := 17/20
    efficiencyDepreciationFactor := 199/200
    costIncreaseFactor := 41/40
    discountRate := 103/100 }

/-- C5 witness: the clamped bill formula evaluated at year 0 of the concrete
test inputs. -/
theorem yearlyUtilityBill_clamped_formula_witness :
    0 < testParams.installationLifeSpan ∧
    ((∃ prod, (yearlyProductionAcKwh testConfig testParams)[0]? = some prod ∧
      (yearlyUtilityBillEstimates testConfig testParams)[0]? =
        some (max 0 ((yearlyKwhEnergyConsumption testParams - prod) *
          testParams.energyCostPerKwh * testParams.costIncreaseFactor ^ 0 /
            testParams.discountRate ^ 0))) ∧
      ∀ b ∈ yearlyUtilityBillEstimates testConfig testParams, 0 ≤ b) :=
  ⟨by norm_num [testParams],
    yearlyUtilityBill_clamped_formula testConfig testParams 0 (by norm_num [testParams])⟩

set_option maxHeartbeats 4000000 in
/-- C1 (code bug): with the sample configuration of `pdfGenerator.test.ts`
and the application's default financial parameters, the on-screen Solar
Potential analysis computes break-even year 4, while the PDF export computes
-1 (never reached): the PDF accumulation in `PDFDownloadButton.svelte`
re-charges the net installation cost in every year instead of only in
year 0, contradicting its own comment "matching SolarPotentialSection
logic". -/
theorem pdf_breakEven_diverges_from_screen :
    breakEvenYear testConfig testParams = 4 ∧
      pdfBreakEvenYear testConfig testParams = -1 := by
  have hrange : List.range 20 = [0,1,2,3,4,5,6,7,8,9,10,11,12,13,14,15,16,17,18,19] := by rfl
  constructor
  · norm_num [breakEvenYear, findIndexLe, firstIdx, firstIdxFrom, cumulativeCostsWithSolar,
      cumulativeCostsWithoutSolar, accumWithSolar, runningSums, yearlyUtilityBillEstimates,
      yearlyProductionAcKwh, yearlyCostWithoutSolar, jsMapIdx, mapWithIndex,
      yearlyKwhEnergyConsumption, monthlyKwhEnergyConsumption, initialAcKwhPerYear,
      installationCostTotal, installationSizeKw, testConfig, testParams, hrange]
  · norm_num [pdfBreakEvenYear, findIndexLe, firstIdx, firstIdxFrom, pdfCumulativeCostsWithSolar,
      cumulativeCostsWithoutSolar, pdfAccumWithSolar, runningSums, yearlyUtilityBillEstimates,
      yearlyProductionAcKwh, yearlyCostWithoutSolar, jsMapIdx, mapWithIndex,
      yearlyKwhEnergyConsumption, monthlyKwhEnergyConsumption, initialAcKwhPerYear,
      installationCostTotal, installationSizeKw, testConfig, testParams, hrange]

/-! ### Panel configuration selector -/

/-- Modelled from the spec: the implementation of `findSolarConfig` lives in
`src/routes/utils.ts`, which is absent from the provided sources (only its
call sites in the `Sections` and `SolarPotentialSection` components are
present).  Spec 4.3: "for each candidate in ascending order, compute
`adjustedYield = candidate.yearlyEnergyDcKwh * capacityRatio * dcToAcDerate`;
return the index of the first candidate where
`adjustedYield >= targetYearlyKwh`.  If no candidate satisfies this, return
the index of the last (largest) candidate."  The second factor is the panel
capacity scaling (called capacityRatio by the spec). -/
def findSolarConfig (solarPanelConfigs : List SolarPanelConfig)
    (targetYearlyKwh capacityScale dcToAcDerate : ℚ) : ℕ :=
  match firstIdx (fun i =>
      match solarPanelConfigs[i]? with
      | some c =>
        decide (targetYearlyKwh ≤ c.yearlyEnergyDcKwh * capacityScale * dcToAcDerate)
      | none => false) solarPanelConfigs.length with
  | some i => i
  | none => solarPanelConfigs.length - 1

theorem findSolarConfig_pred_iff (configs : List SolarPanelConfig)
    (target scale derate : ℚ) (i : ℕ) :
    ((match configs[i]? with
      | some c => decide (target ≤ c.yearlyEnergyDcKwh * scale * derate)
      | none => false) = true) ↔
      ∃ c, configs[i]? = some c ∧ target ≤ c.yearlyEnergyDcKwh * scale * derate := by
  cases hc : configs[i]? with
  | none => simp [hc]
  | some c => simp [hc]

/-- C2: for every non-empty configs list ordered by ascending yield and
non-negative target with positive capacity scaling and derate,
`findSolarConfig` returns the smallest index whose adjusted yield meets the
target, and the last index (`length - 1`) when no index qualifies. -/
theorem findSolarConfig_smallest_sufficient (configs : List SolarPanelConfig)
    (target scale derate : ℚ)
    (hne : configs ≠ [])
    (hsorted : configs.Chain' fun a b => a.yearlyEnergyDcKwh ≤ b.yearlyEnergyDcKwh)
    (htarget : 0 ≤ target) (hscale : 0 < scale) (hderate : 0 < derate) :
    ((∃ (i : ℕ) (c : SolarPanelConfig), configs[i]? = some c ∧ target ≤ c.yearlyEnergyDcKwh * scale * derate) →
      ∃ c, configs[findSolarConfig configs target scale derate]? = some c ∧
        target ≤ c.yearlyEnergyDcKwh * scale * derate ∧
        ∀ (j : ℕ) (c' : SolarPanelConfig), j < findSolarConfig configs target scale derate → configs[j]? = some c' →
          ¬ target ≤ c'.yearlyEnergyDcKwh * scale * derate) ∧
    ((∀ (i : ℕ) (c : SolarPanelConfig), configs[i]? = some c → ¬ target ≤ c.yearlyEnergyDcKwh * scale * derate) →
      findSolarConfig configs target scale derate = configs.length - 1) := by
  unfold findSolarConfig
  cases hfi : firstIdx (fun i =>
      match configs[i]? with
      | some c => decide (target ≤ c.yearlyEnergyDcKwh * scale * derate)
      | none => false) configs.length with
  | some j =>
    rw [firstIdx_eq_some_iff] at hfi
    obtain ⟨hjlen, hjpred, hjmin⟩ := hfi
    obtain ⟨c, hc, hcle⟩ := (findSolarConfig_pred_iff configs target scale derate j).mp hjpred
    simp only
    constructor
    · intro _
      refine ⟨c, hc, hcle, ?_⟩
      intro k c' hk hc' hle
      have hkfalse := hjmin k hk
      have hk_true := (findSolarConfig_pred_iff configs target scale derate k).mpr ⟨c', hc', hle⟩
      rw [hk_true] at hkfalse
      exact Bool.noConfusion hkfalse
    · intro hnone
      exact absurd hcle (hnone j c hc)
  | none =>
    rw [firstIdx_eq_none_iff] at hfi
    simp only
    constructor
    · rintro ⟨i, c, hc, hle⟩
      have hilen : i < configs.length := lt_length_of_getElem?_eq_some hc
      have hfalse := hfi i hilen
      have htrue := (findSolarConfig_pred_iff configs target scale derate i).mpr ⟨c, hc, hle⟩
      rw [htrue] at hfalse
      exact absurd hfalse (by simp)
    · intro _; trivial

/-- C2 witness: the spec's worked example — yields 1000, 2000, 4000 with
target 2500 and unit factors select index 2 — instantiating the selector
theorem at that input. -/
theorem findSolarConfig_smallest_sufficient_witness :
    ([⟨5, 1000⟩, ⟨10, 2000⟩, ⟨20, 4000⟩] ≠ ([] : List SolarPanelConfig)) ∧
    (([⟨5, 1000⟩, ⟨10, 2000⟩, (⟨20, 4000⟩ : SolarPanelConfig)] : List SolarPanelConfig).Chain'
        fun a b => a.yearlyEnergyDcKwh ≤ b.yearlyEnergyDcKwh) ∧
    (0 : ℚ) ≤ 2500 ∧ (0 : ℚ) < 1 ∧
    (((∃ (i : ℕ) (c : SolarPanelConfig), ([⟨5, 1000⟩, ⟨10, 2000⟩, ⟨20, 4000⟩] : List SolarPanelConfig)[i]? = some c ∧
        (2500 : ℚ) ≤ c.yearlyEnergyDcKwh * 1 * 1) →
      ∃ c, ([⟨5, 1000⟩, ⟨10, 2000⟩, ⟨20, 4000⟩] :
          List SolarPanelConfig)[findSolarConfig [⟨5, 1000⟩, ⟨10, 2000⟩, ⟨20, 4000⟩] 2500 1 1]? =
            some c ∧
        (2500 : ℚ) ≤ c.yearlyEnergyDcKwh * 1 * 1 ∧
        ∀ (j : ℕ) (c' : SolarPanelConfig), j < findSolarConfig [⟨5, 1000⟩, ⟨10, 2000⟩, ⟨20, 4000⟩] 2500 1 1 →
          ([⟨5, 1000⟩, ⟨10, 2000⟩, ⟨20, 4000⟩] : List SolarPanelConfig)[j]? = some c' →
          ¬ (2500 : ℚ) ≤ c'.yearlyEnergyDcKwh * 1 * 1) ∧
    ((∀ (i : ℕ) (c : SolarPanelConfig), ([⟨5, 1000⟩, ⟨10, 2000⟩, ⟨20, 4000⟩] : List SolarPanelConfig)[i]? = some c →
        ¬ (2500 : ℚ) ≤ c.yearlyEnergyDcKwh * 1 * 1) →
      findSolarConfig [⟨5, 1000⟩, ⟨10, 2000⟩, ⟨20, 4000⟩] 2500 1 1 =
        ([⟨5, 1000⟩, ⟨10, 2000⟩, ⟨20, 4000⟩] : List SolarPanelConfig).length - 1)) :=
  ⟨by simp, by norm_num [List.chain'_cons], by norm_num, by norm_num,
    findSolarConfig_smallest_sufficient [⟨5, 1000⟩, ⟨10, 2000⟩, ⟨20, 4000⟩] 2500 1 1
      (by simp) (by norm_num [List.chain'_cons]) (by norm_num) (by norm_num) (by norm_num)⟩

/-! ### Manual configuration override (C6)

Two divergent configuration-selection code paths exist in the program. -/

/-- Source (`SolarPotentialSection.svelte`, `updateConfig`, identical in the
`Sections.svelte`-embedded copy and in `part_004`): recompute consumption and
the capacity scaling, then recompute `configId` via `findSolarConfig` unless
`manualConfigOverride` is set. -/
def updateConfig (manualConfigOverride : Bool) (solarPanelConfigs : List SolarPanelConfig)
    (monthlyAverageEnergyBillInput energyCostPerKwhInput panelCapacityWattsInput
      defaultPanelCapacityWatts dcToAcDerateInput : ℚ) (configId : ℕ) : ℕ :=
  if !manualConfigOverride then
    findSolarConfig solarPanelConfigs
      (monthlyAverageEnergyBillInput / energyCostPerKwhInput * 12)
      (panelCapacityWattsInput / defaultPanelCapacityWatts) dcToAcDerateInput
  else configId

/-- Source (legacy `Sections.svelte`, component instantiation): the
`SolarPotentialSection` is mounted WITHOUT binding `manualConfigOverride` or
`resetToAutoConfig`, so inside the component the flag is `undefined`, which
is falsy. -/
def legacyManualConfigOverride : Bool := false

/-- Source (legacy `Sections.svelte`): the `configIdChange` handler only
mirrors the new value to the sidebar store; no override flag is ever set in
this path, so after a manual pick the flag keeps its legacy (undefined =
false) value.  Returns the pair (configId after the pick, override flag
after the pick). -/
def legacyPickConfig (newConfigId : ℕ) : ℕ × Bool :=
  (newConfigId, legacyManualConfigOverride)

/-- Source (`part_003` `Sections` variant, `handleConfigIdChange`): a manual
pick stores the new `configId` and sets `manualConfigOverride` to true. -/
def handleConfigIdChange (newConfigId : ℕ) : ℕ × Bool :=
  (newConfigId, true)

/-- Source (`part_003`, reactive auto-config block):
`if (!manualConfigOverride && configId === undefined && buildingInsights) configId = findSolarConfig(...)`
(modelled at a moment when building insights are present). -/
def autoRecomputeConfigId (manualConfigOverride : Bool) (configId : Option ℕ)
    (solarPanelConfigs : List SolarPanelConfig) (target scale derate : ℚ) : Option ℕ :=
  if !manualConfigOverride && configId == none then
    some (findSolarConfig solarPanelConfigs target scale derate)
  else configId

/-- C6 counterexample: in the legacy `Sections.svelte` path the override flag
is never set, so after the user explicitly picks configuration 0, a financial
parameter change re-runs `updateConfig`, which overwrites the pick with the
recomputed index 1. -/
theorem legacy_updateConfig_overwrites_manual_pick :
    (legacyPickConfig 0).2 = false ∧
    updateConfig (legacyPickConfig 0).2 [⟨10, 4000⟩, ⟨20, 8000⟩] 120 (3/10) 400 400 (17/20)
        (legacyPickConfig 0).1 = 1 ∧
    (1 : ℕ) ≠ (legacyPickConfig 0).1 := by
  refine ⟨rfl, ?_, by norm_num [legacyPickConfig, legacyManualConfigOverride]⟩
  norm_num [updateConfig, legacyPickConfig, legacyManualConfigOverride, findSolarConfig,
    firstIdx, firstIdxFrom]

/-- C6 (amended): in the code paths that thread the override flag — the
`part_003` sections component together with the override-aware
`SolarPotentialSection` — a set `manualConfigOverride` blocks every automatic
recomputation from overwriting the user's `configId` (both the
`updateConfig` handler and the reactive auto-config block leave it
unchanged), and a manual pick does set the flag. -/
theorem manual_override_blocks_recompute (solarPanelConfigs : List SolarPanelConfig)
    (bill cost cap defCap derate target scale : ℚ) (configId : ℕ)
    (storedId : Option ℕ) (n : ℕ) :
    updateConfig true solarPanelConfigs bill cost cap defCap derate configId = configId ∧
    autoRecomputeConfigId true storedId solarPanelConfigs target scale derate = storedId ∧
    (handleConfigIdChange n).2 = true := by
  refine ⟨rfl, ?_, rfl⟩
  simp [autoRecomputeConfigId]

/-! ### Panel configuration store (`src/routes/stores/panelConfigStore.ts`) -/

/-- Source: the `PanelConfigState` interface.  `configId: number | undefined`
is modelled as `Option ℤ` (a JS number may be negative; the accessor checks
for that explicitly). -/
structure PanelConfigState where
  configId : Option ℤ
  panelCapacityWatts : ℚ
  manualConfigOverride : Bool
  solarPanelConfigs : List SolarPanelConfig
  defaultPanelCapacityWatts : ℚ

/-- Source: `getCurrentPanelConfig`: returns undefined when `configId` is
undefined, negative, or at least `solarPanelConfigs.length`; otherwise
returns `solarPanelConfigs[configId]`. -/
def getCurrentPanelConfig (state : PanelConfigState) : Option SolarPanelConfig :=
  match state.configId with
  | none => none
  | some id =>
    if id < 0 ∨ (state.solarPanelConfigs.length : ℤ) ≤ id then none
    else state.solarPanelConfigs[id.toNat]?

/-- Source: `getPanelCount`: `config?.panelsCount || 0` — the JS `||` yields
0 both when the config is undefined and when `panelsCount` is itself 0. -/
def getPanelCount (state : PanelConfigState) : ℕ :=
  match getCurrentPanelConfig state with
  | none => 0
  | some config => if config.panelsCount = 0 then 0 else config.panelsCount

/-- Source: `getYearlyEnergy`: 0 when no config, otherwise
`config.yearlyEnergyDcKwh * (panelCapacityWatts / defaultPanelCapacityWatts)`. -/
def getYearlyEnergy (state : PanelConfigState) : ℚ :=
  match getCurrentPanelConfig state with
  | none => 0
  | some config =>
    config.yearlyEnergyDcKwh * (state.panelCapacityWatts / state.defaultPanelCapacityWatts)

/-- C10: `getCurrentPanelConfig` returns `none` exactly when `configId` is
undefined, negative, or at least the configs length; otherwise it returns
`solarPanelConfigs[configId]`; and `getPanelCount` / `getYearlyEnergy`
return 0 (without any out-of-bounds access) whenever it returns `none`. -/
theorem getCurrentPanelConfig_total (state : PanelConfigState) :
    (getCurrentPanelConfig state = none ↔
      state.configId = none ∨ ∃ id : ℤ, state.configId = some id ∧
        (id < 0 ∨ (state.solarPanelConfigs.length : ℤ) ≤ id)) ∧
    (∀ id : ℤ, state.configId = some id → 0 ≤ id →
      id < (state.solarPanelConfigs.length : ℤ) →
      ∃ c, state.solarPanelConfigs[id.toNat]? = some c ∧
        getCurrentPanelConfig state = some c) ∧
    (getCurrentPanelConfig state = none →
      getPanelCount state = 0 ∧ getYearlyEnergy state = 0) := by
  refine ⟨?_, ?_, ?_⟩
  · cases hid : state.configId with
    | none => simp [getCurrentPanelConfig, hid]
    | some id =>
      simp only [getCurrentPanelConfig, hid]
      by_cases hrange : id < 0 ∨ (state.solarPanelConfigs.length : ℤ) ≤ id
      · simp only [if_pos hrange]
        constructor
        · intro _; exact Or.inr ⟨id, rfl, hrange⟩
        · intro _; trivial
      · simp only [if_neg hrange]
        push_neg at hrange
        have hlt : id.toNat < state.solarPanelConfigs.length := by omega
        rw [List.getElem?_eq_getElem hlt]
        constructor
        · intro h; exact Option.noConfusion h
        · rintro (h | ⟨id', hid', hrange'⟩)
          · exact Option.noConfusion h
          · have heq : id = id' := Option.some.inj hid'
            subst heq
            omega
  · intro id hid hnonneg hlt
    have hrange : ¬ (id < 0 ∨ (state.solarPanelConfigs.length : ℤ) ≤ id) := by omega
    have hltn : id.toNat < state.solarPanelConfigs.length := by omega
    refine ⟨state.solarPanelConfigs[id.toNat], List.getElem?_eq_getElem hltn, ?_⟩
    simp only [getCurrentPanelConfig, hid, if_neg hrange]
    exact List.getElem?_eq_getElem hltn
  · intro hnone
    constructor
    · simp [getPanelCount, hnone]
    · simp [getYearlyEnergy, hnone]

/-- Concrete in-bounds store state used by the C10 witness: configId 0 over
a one-element configs array. -/
def witnessPanelState : PanelConfigState :=
  { configId := some 0
    panelCapacityWatts := 400
    manualConfigOverride := false
    solarPanelConfigs := [⟨10, 4000⟩]
    defaultPanelCapacityWatts := 400 }

/-- C10 witness: the accessor theorem instantiated at `witnessPanelState`. -/
theorem getCurrentPanelConfig_total_witness :
    (getCurrentPanelConfig witnessPanelState = none ↔
      witnessPanelState.configId = none ∨ ∃ id : ℤ, witnessPanelState.configId = some id ∧
        (id < 0 ∨ (witnessPanelState.solarPanelConfigs.length : ℤ) ≤ id)) ∧
    (∀ id : ℤ, witnessPanelState.configId = some id → 0 ≤ id →
      id < (witnessPanelState.solarPanelConfigs.length : ℤ) →
      ∃ c, witnessPanelState.solarPanelConfigs[id.toNat]? = some c ∧
        getCurrentPanelConfig witnessPanelState = some c) ∧
    (getCurrentPanelConfig witnessPanelState = none →
      getPanelCount witnessPanelState = 0 ∧ getYearlyEnergy witnessPanelState = 0) :=
  getCurrentPanelConfig_total witnessPanelState

/-! ### Persisted mobile sidebar state (`src/routes/sections/sidebarMobileState.ts`)
and the unguarded read in `InputPanelsCount.svelte` (C3) -/

/-- Source: the `SidebarMobileState` interface. -/
structure SidebarMobileState where
  showPanels : Bool
  monthlyAverageEnergyBillInput : ℚ
  panelCapacityWattsInput : ℚ
  energyCostPerKwhInput : ℚ
  dcToAcDerateInput : ℚ
  expandedSection : String
  configId : Option ℤ
  manualConfigOverride : Bool

/-- Source: `defaultState`. -/
def defaultSidebarState : SidebarMobileState :=
  { showPanels := true
    monthlyAverageEnergyBillInput := 120
    panelCapacityWattsInput := 400
    energyCostPerKwhInput := 3/10
    dcToAcDerateInput := 17/20
    expandedSection := ""
    configId := none
    manualConfigOverride := false }

/-- The result of `JSON.parse` on the stored preferences: each persisted
field may be absent (`expandedSection` is never persisted). -/
structure PersistedPrefs where
  showPanels : Option Bool
  monthlyAverageEnergyBillInput : Option ℚ
  panelCapacityWattsInput : Option ℚ
  energyCostPerKwhInput : Option ℚ
  dcToAcDerateInput : Option ℚ
  configId : Option (Option ℤ)
  manualConfigOverride : Option Bool

/-- Source: `loadPersistedState`: returns the defaults when nothing (or
unparsable data) is stored, otherwise the spread merge
`{ ...defaultState, ...parsed }` — every parsed field overrides the default,
with NO bounds validation of `configId`. -/
def loadPersistedState (stored : Option PersistedPrefs) : SidebarMobileState :=
  match stored with
  | none => defaultSidebarState
  | some parsed =>
    { showPanels := parsed.showPanels.getD defaultSidebarState.showPanels
      monthlyAverageEnergyBillInput :=
        parsed.monthlyAverageEnergyBillInput.getD
          defaultSidebarState.monthlyAverageEnergyBillInput
      panelCapacityWattsInput :=
        parsed.panelCapacityWattsInput.getD defaultSidebarState.panelCapacityWattsInput
      energyCostPerKwhInput :=
        parsed.energyCostPerKwhInput.getD defaultSidebarState.energyCostPerKwhInput
      dcToAcDerateInput := parsed.dcToAcDerateInput.getD defaultSidebarState.dcToAcDerateInput
      expandedSection := defaultSidebarState.expandedSection
      configId := parsed.configId.getD defaultSidebarState.configId
      manualConfigOverride :=
        parsed.manualConfigOverride.getD defaultSidebarState.manualConfigOverride }

/-- Source (`InputPanelsCount.svelte` line 44): the table cell reads
`solarPanelConfigs[configId].panelsCount` with no bounds check.  Accessing
`.panelsCount` of an undefined element is a runtime TypeError, modelled as
`none`; a successful read is `some`. -/
def panelsCountRead (solarPanelConfigs : List SolarPanelConfig) (configId : ℤ) : Option ℕ :=
  if h : 0 ≤ configId ∧ configId.toNat < solarPanelConfigs.length then
    some (solarPanelConfigs.get ⟨configId.toNat, h.2⟩).panelsCount
  else none

/-- C3 (code bug): persisted preferences restore `configId` 5 with no
validation, and against a current configs array of length 1 the unguarded
read in `InputPanelsCount` fails (`none`, a runtime TypeError in JS), while
the bounds-checking `getCurrentPanelConfig` accessor safely returns `none`
for the same state.  This violates the claimed invariant that `configId` is
always in bounds and that no consumer reads without checking. -/
theorem persisted_configId_breaks_unguarded_read :
    (loadPersistedState (some
        { showPanels := none
          monthlyAverageEnergyBillInput := none
          panelCapacityWattsInput := none
          energyCostPerKwhInput := none
          dcToAcDerateInput := none
          configId := some (some 5)
          manualConfigOverride := none })).configId = some 5 ∧
    panelsCountRead [⟨10, 4000⟩] 5 = none ∧
    getCurrentPanelConfig
      { configId := some 5
        panelCapacityWatts := 400
        manualConfigOverride := false
        solarPanelConfigs := [⟨10, 4000⟩]
        defaultPanelCapacityWatts := 400 } = none := by
  refine ⟨rfl, ?_, ?_⟩
  · norm_num [panelsCountRead]
  · norm_num [getCurrentPanelConfig]

/-! ### Overlay animation timer (`src/routes/sections/overlayState.ts`, C9) -/

/-- Source: the `OverlayState` store value. -/
structure OverlayState where
  layerId : String
  month : ℕ
  day : ℕ
  hour : ℕ
  playAnimation : Bool
  tick : ℕ

/-- Source: the initial store value. -/
def initialOverlayState : OverlayState :=
  { layerId := "monthlyFlux", month := 0, day := 14, hour := 0,
    playAnimation := true, tick := 0 }

/-- Source (lines 21-26): the module-level interval callback
`overlayState.update(state => ({ ...state, tick: state.tick + 1 }))`. -/
def intervalCallback (s : OverlayState) : OverlayState :=
  { s with tick := s.tick + 1 }

/-- The two timers present in the program: the module-level overlay
animation interval and the location-change debounce timeout of
`BuildingInsightsSection.svelte`. -/
inductive TimerId where
  | overlayInterval
  | locationChangeDebounce
  deriving DecidableEq

/-- Survey of every teardown handler in the sources:
`BuildingInsightsSection.svelte` (`onDestroy`) clears only the
location-change debounce via `clearTimeout`; the page components'
`onDestroy`/`onMount` cleanups remove only resize listeners; no
`clearInterval` call exists anywhere, so no teardown clears the module-level
overlay interval. -/
def clearedOnTeardown : TimerId → Bool
  | TimerId.overlayInterval => false
  | TimerId.locationChangeDebounce => true

/-- The timer subsystem: the shared overlay store, whether the owning
component is mounted, and whether the module-level interval is active. -/
structure OverlayTimerSystem where
  overlay : OverlayState
  componentMounted : Bool
  intervalActive : Bool

inductive OverlayEvent where
  | intervalFire
  | componentTeardown

/-- One step of the timer subsystem: an active interval fires its callback;
component teardown unmounts the component and cancels a timer only if some
teardown handler clears it (per `clearedOnTeardown`, none clears the
overlay interval). -/
def overlayStep (s : OverlayTimerSystem) : OverlayEvent → OverlayTimerSystem
  | OverlayEvent.intervalFire =>
    if s.intervalActive then { s with overlay := intervalCallback s.overlay } else s
  | OverlayEvent.componentTeardown =>
    { s with componentMounted := false,
             intervalActive := s.intervalActive &&
               !(clearedOnTeardown TimerId.overlayInterval) }

/-- Source: at module load (`if (typeof window !== 'undefined') setInterval(...)`)
the interval is registered; initially the owning component is mounted. -/
def overlayStart : OverlayTimerSystem :=
  { overlay := initialOverlayState, componentMounted := true, intervalActive := true }

/-- C9 (code bug): after the owning component is torn down, the module-level
animation interval still fires and increments the shared tick from 0 to 1 —
the "persistent timer" is never cleared, contradicting the claim that no
tick increments occur after teardown. -/
theorem overlay_tick_after_teardown :
    (overlayStep overlayStart OverlayEvent.componentTeardown).componentMounted = false ∧
    ((overlayStep (overlayStep overlayStart OverlayEvent.componentTeardown)
        OverlayEvent.intervalFire).overlay).tick = 1 := by
  constructor <;> rfl

/-! ### Solar API error handling and retry policy
(`src/routes/services/pdfGenerator.ts`, C7) -/

/-- Source: the structured `{code, message, status}` body of a Solar API
error response (`RequestError.error`). -/
structure ErrorBody where
  code : ℤ
  message : String
  status : String
  deriving DecidableEq

/-- Source: `RequestError` — the JSON content thrown by
`findClosestBuilding` / `getDataLayerUrls` / `downloadGeoTIFF` on a
non-200 response. -/
structure RequestError where
  error : ErrorBody
  deriving DecidableEq

/-- Source (`withRetry` catch clause): a caught error is retried exactly
when `error.error?.code` is 429 or 503. -/
def isRetryable (e : RequestError) : Bool :=
  e.error.code == 429 || e.error.code == 503

/-- Source (`withRetry`): the loop body, modelled over a deterministic trace
`op : ℕ → Except RequestError α` giving the outcome of each attempt.
`fuel` counts the loop iterations left (`maxRetries + 1 - attempt`); the
`fuel = 0` case models falling out of the loop to the (unreachable)
`throw new Error('Max retries exceeded')`, returned as `none`.  The result
pairs the final outcome with the list of backoff delays that were slept:
`baseDelay * 2 ^ attempt + jitter attempt` before retrying attempt + 1. -/
def withRetryGo {α : Type} (op : ℕ → Except RequestError α) (maxRetries : ℕ)
    (baseDelay : ℚ) (jitter : ℕ → ℚ) :
    ℕ → ℕ → Option (Except RequestError α) × List ℚ
  | 0, _ => (none, [])
  | fuel + 1, attempt =>
    match op attempt with
    | Except.ok v => (some (Except.ok v), [])
    | Except.error e =>
      if attempt == maxRetries || !isRetryable e then (some (Except.error e), [])
      else
        let d := baseDelay * 2 ^ attempt + jitter attempt
        let rest := withRetryGo op maxRetries baseDelay jitter fuel (attempt + 1)
        (rest.1, d :: rest.2)

/-- Source: `withRetry(operation, maxRetries = 3, baseDelay = 1000)` — the
loop runs attempts `0 .. maxRetries`. -/
def withRetry {α : Type} (op : ℕ → Except RequestError α) (maxRetries : ℕ)
    (baseDelay : ℚ) (jitter : ℕ → ℚ) : Option (Except RequestError α) × List ℚ :=
  withRetryGo op maxRetries baseDelay jitter (maxRetries + 1) 0

/-- Source: the default capped attempt budget (`maxRetries: number = 3`). -/
def defaultMaxRetries : ℕ := 3

/-- Source: the default base delay in milliseconds (`baseDelay: number = 1000`). -/
def defaultBaseDelay : ℚ := 1000

theorem range_succ_map_shift (F : ℕ → ℚ) (attempt n : ℕ) :
    (List.range (n + 1)).map (fun a => F (attempt + a)) =
      F attempt :: (List.range n).map (fun a => F (attempt + 1 + a)) := by
  rw [List.range_succ_eq_map, List.map_cons, List.map_map]
  simp only [Nat.add_zero]
  congr 1
  apply List.map_congr_left
  intro a _
  simp only [Function.comp_apply, Nat.succ_eq_add_one]
  rw [show attempt + (a + 1) = attempt + 1 + a by omega]

theorem withRetryGo_ok {α : Type} (op : ℕ → Except RequestError α) (maxRetries : ℕ)
    (baseDelay : ℚ) (jitter : ℕ → ℚ) (v : α) :
    ∀ (n fuel attempt : ℕ), n < fuel → attempt + n ≤ maxRetries →
      (∀ k, k < n → ∃ e, op (attempt + k) = Except.error e ∧ isRetryable e = true) →
      op (attempt + n) = Except.ok v →
      withRetryGo op maxRetries baseDelay jitter fuel attempt =
        (some (Except.ok v), (List.range n).map fun a =>
          baseDelay * 2 ^ (attempt + a) + jitter (attempt + a)) := by
  intro n
  induction n with
  | zero =>
    intro fuel attempt hfuel _ _ hok
    cases fuel with
    | zero => omega
    | succ fuel =>
      rw [Nat.add_zero] at hok
      simp [withRetryGo, hok]
  | succ n ih =>
    intro fuel attempt hfuel hle hfail hok
    cases fuel with
    | zero => omega
    | succ fuel =>
      obtain ⟨e, he, hret⟩ := hfail 0 (Nat.succ_pos n)
      rw [Nat.add_zero] at he
      have hne : attempt ≠ maxRetries := by omega
      have hcond : (attempt == maxRetries || !isRetryable e) = false := by
        simp [hne, hret]
      have hrec := ih fuel (attempt + 1) (by omega) (by omega)
        (fun k hk => by
          have hk1 := hfail (k + 1) (by omega)
          rwa [show attempt + (k + 1) = attempt + 1 + k by omega] at hk1)
        (by rwa [show attempt + 1 + n = attempt + (n + 1) by omega])
      simp only [withRetryGo, he, hcond, Bool.false_eq_true, if_false, hrec]
      rw [show (List.range (n + 1)).map
            (fun a => baseDelay * 2 ^ (attempt + a) + jitter (attempt + a)) =
          (baseDelay * 2 ^ attempt + jitter attempt) ::
            (List.range n).map
              (fun a => baseDelay * 2 ^ (attempt + 1 + a) + jitter (attempt + 1 + a)) from
        range_succ_map_shift (fun x => baseDelay * 2 ^ x + jitter x) attempt n]

theorem withRetryGo_allFail {α : Type} (op : ℕ → Except RequestError α) (maxRetries : ℕ)
    (baseDelay : ℚ) (jitter : ℕ → ℚ) (e : RequestError) (hmax : op maxRetries = Except.error e) :
    ∀ (m fuel attempt : ℕ), attempt + m = maxRetries → m < fuel →
      (∀ k, k ≤ m → ∃ e', op (attempt + k) = Except.error e' ∧ isRetryable e' = true) →
      withRetryGo op maxRetries baseDelay jitter fuel attempt =
        (some (Except.error e), (List.range m).map fun a =>
          baseDelay * 2 ^ (attempt + a) + jitter (attempt + a)) := by
  intro m
  induction m with
  | zero =>
    intro fuel attempt heq hfuel _
    cases fuel with
    | zero => omega
    | succ fuel =>
      have hatt : attempt = maxRetries := by omega
      subst hatt
      simp [withRetryGo, hmax]
  | succ m ih =>
    intro fuel attempt heq hfuel hfail
    cases fuel with
    | zero => omega
    | succ fuel =>
      obtain ⟨e', he', hret⟩ := hfail 0 (Nat.zero_le _)
      rw [Nat.add_zero] at he'
      have hne : attempt ≠ maxRetries := by omega
      have hcond : (attempt == maxRetries || !isRetryable e') = false := by
        simp [hne, hret]
      have hrec := ih fuel (attempt + 1) (by omega) (by omega)
        (fun k hk => by
          have hk1 := hfail (k + 1) (by omega)
          rwa [show attempt + (k + 1) = attempt + 1 + k by omega] at hk1)
      simp only [withRetryGo, he', hcond, Bool.false_eq_true, if_false, hrec]
      rw [show (List.range (m + 1)).map
            (fun a => baseDelay * 2 ^ (attempt + a) + jitter (attempt + a)) =
          (baseDelay * 2 ^ attempt + jitter attempt) ::
            (List.range m).map
              (fun a => baseDelay * 2 ^ (attempt + 1 + a) + jitter (attempt + 1 + a)) from
        range_succ_map_shift (fun x => baseDelay * 2 ^ x + jitter x) attempt m]

theorem withRetryGo_nonRetryable {α : Type} (op : ℕ → Except RequestError α)
    (maxRetries : ℕ) (baseDelay : ℚ) (jitter : ℕ → ℚ) (e : RequestError)
    (hnoret : isRetryable e = false) :
    ∀ (n fuel attempt : ℕ), n < fuel → attempt + n ≤ maxRetries →
      (∀ k, k < n → ∃ e', op (attempt + k) = Except.error e' ∧ isRetryable e' = true) →
      op (attempt + n) = Except.error e →
      withRetryGo op maxRetries baseDelay jitter fuel attempt =
        (some (Except.error e), (List.range n).map fun a =>
          baseDelay * 2 ^ (attempt + a) + jitter (attempt + a)) := by
  intro n
  induction n with
  | zero =>
    intro fuel attempt hfuel _ _ herr
    cases fuel with
    | zero => omega
    | succ fuel =>
      rw [Nat.add_zero] at herr
      simp [withRetryGo, herr, hnoret]
  | succ n ih =>
    intro fuel attempt hfuel hle hfail herr
    cases fuel with
    | zero => omega
    | succ fuel =>
      obtain ⟨e', he', hret⟩ := hfail 0 (Nat.succ_pos n)
      rw [Nat.add_zero] at he'
      have hne : attempt ≠ maxRetries := by omega
      have hcond : (attempt == maxRetries || !isRetryable e') = false := by
        simp [hne, hret]
      have hrec := ih fuel (attempt + 1) (by omega) (by omega)
        (fun k hk => by
          have hk1 := hfail (k + 1) (by omega)
          rwa [show attempt + (k + 1) = attempt + 1 + k by omega] at hk1)
        (by rwa [show attempt + 1 + n = attempt + (n + 1) by omega])
      simp only [withRetryGo, he', hcond, Bool.false_eq_true, if_false, hrec]
      rw [show (List.range (n + 1)).map
            (fun a => baseDelay * 2 ^ (attempt + a) + jitter (attempt + a)) =
          (baseDelay * 2 ^ attempt + jitter attempt) ::
            (List.range n).map
              (fun a => baseDelay * 2 ^ (attempt + 1 + a) + jitter (attempt + 1 + a)) from
        range_succ_map_shift (fun x => baseDelay * 2 ^ x + jitter x) attempt n]

/-- C7: (i) whenever an attempt fails with a non-retryable code (anything
other than HTTP 429/503), no further attempt is made — the structured error
is rethrown immediately and unchanged, in particular a first-attempt
non-retryable failure sleeps no backoff delay at all; (ii) when the first
`n ≤ maxRetries` attempts fail retryably (HTTP 429/503) and attempt `n`
succeeds, the call returns the success after sleeping exactly the
exponentially doubling delays `baseDelay * 2 ^ k + jitter k` for `k < n`;
(iii) when every allowed attempt fails retryably, the attempt count is
capped at `maxRetries + 1` and the last error is thrown after `maxRetries`
such delays. -/
theorem withRetry_backoff_policy {α : Type} (op : ℕ → Except RequestError α)
    (maxRetries : ℕ) (baseDelay : ℚ) (jitter : ℕ → ℚ) :
    (∀ (n : ℕ) (e : RequestError), n ≤ maxRetries →
      (∀ k, k < n → ∃ e', op k = Except.error e' ∧ isRetryable e' = true) →
      op n = Except.error e → isRetryable e = false →
      withRetry op maxRetries baseDelay jitter =
        (some (Except.error e),
          (List.range n).map fun a => baseDelay * 2 ^ a + jitter a)) ∧
    (∀ (n : ℕ) (v : α), n ≤ maxRetries →
      (∀ k, k < n → ∃ e, op k = Except.error e ∧ isRetryable e = true) →
      op n = Except.ok v →
      withRetry op maxRetries baseDelay jitter =
        (some (Except.ok v), (List.range n).map fun a => baseDelay * 2 ^ a + jitter a)) ∧
    (∀ e, op maxRetries = Except.error e →
      (∀ k, k ≤ maxRetries → ∃ e', op k = Except.error e' ∧ isRetryable e' = true) →
      withRetry op maxRetries baseDelay jitter =
        (some (Except.error e), (List.range maxRetries).map fun a =>
          baseDelay * 2 ^ a + jitter a)) := by
  refine ⟨?_, ?_, ?_⟩
  · intro n e hn hfail herr hnoret
    have := withRetryGo_nonRetryable op maxRetries baseDelay jitter e hnoret n
      (maxRetries + 1) 0 (by omega) (by omega)
      (fun k hk => by simpa using hfail k hk) (by simpa using herr)
    unfold withRetry
    rw [this]
    simp
  · intro n v hn hfail hok
    have := withRetryGo_ok op maxRetries baseDelay jitter v n (maxRetries + 1) 0
      (by omega) (by omega)
      (fun k hk => by simpa using hfail k hk) (by simpa using hok)
    unfold withRetry
    rw [this]
    simp
  · intro e hmax hfail
    have := withRetryGo_allFail op maxRetries baseDelay jitter e hmax maxRetries
      (maxRetries + 1) 0 (by omega) (by omega)
      (fun k hk => by simpa using hfail k hk)
    unfold withRetry
    rw [this]
    simp

/-- C7 witness: the policy theorem instantiated on a concrete trace — a
request that fails once with HTTP 429 and succeeds on the second attempt is
retried after one delay of `1000 * 2 ^ 0 + jitter 0`. -/
theorem withRetry_backoff_policy_witness :
    (fun k => if k = 0
        then (Except.error ⟨⟨429, "rate limited", "RESOURCE_EXHAUSTED"⟩⟩ : Except RequestError ℕ)
        else Except.ok 7) 1 = Except.ok 7 ∧
    withRetry (fun k => if k = 0
        then (Except.error ⟨⟨429, "rate limited", "RESOURCE_EXHAUSTED"⟩⟩ : Except RequestError ℕ)
        else Except.ok 7) defaultMaxRetries defaultBaseDelay (fun _ => 0) =
      (some (Except.ok 7), (List.range 1).map fun a => defaultBaseDelay * 2 ^ a + 0) :=
  ⟨rfl,
    (withRetry_backoff_policy (fun k => if k = 0
        then (Except.error ⟨⟨429, "rate limited", "RESOURCE_EXHAUSTED"⟩⟩ : Except RequestError ℕ)
        else Except.ok 7) defaultMaxRetries defaultBaseDelay (fun _ => 0)).2.1 1 7
      (by simp [defaultMaxRetries])
      (fun k hk => ⟨⟨⟨429, "rate limited", "RESOURCE_EXHAUSTED"⟩⟩, by
        have hk0 : k = 0 := by omega
        subst hk0
        exact ⟨rfl, rfl⟩⟩)
      rfl⟩

/-! ### GeoTIFF decoding (`downloadGeoTIFF` in
`src/routes/services/pdfGenerator.ts`, C8)

The geotiff / geokeys-to-proj4 / proj4 libraries are external collaborators;
their outputs for a successfully decoded buffer are modelled abstractly: the
image exposes its width, height, raster bands at native resolution and the
corner bounding box in the embedded coordinate system, and the geo keys
determine a projection to WGS84 together with per-axis coordinate conversion
parameters. -/

/-- Source: the `Bounds` part of the `GeoTiff` result type. -/
structure Bounds where
  north : ℚ
  south : ℚ
  east : ℚ
  west : ℚ
  deriving DecidableEq

/-- Source: the `GeoTiff` interface (`width`, `height`, `rasters`, `bounds`). -/
structure GeoTiff where
  width : ℕ
  height : ℕ
  rasters : List (List ℚ)
  bounds : Bounds
  deriving DecidableEq

/-- The decoded image as produced by the geotiff library:
`image.getWidth()`, `image.getHeight()`, `image.readRasters()` (one numeric
array per band, at the image's native resolution) and
`image.getBoundingBox()` = `[xMin, yMin, xMax, yMax]` in the embedded
coordinate system. -/
structure TiffImage where
  width : ℕ
  height : ℕ
  rasters : List (List ℚ)
  boxXMin : ℚ
  boxYMin : ℚ
  boxXMax : ℚ
  boxYMax : ℚ

/-- The projection derived from the image's geo keys:
`geokeysToProj4.toProj4(geoKeys)` supplies the per-axis
`coordinatesConversionParameters` and `proj4(projObj.proj4, 'WGS84')`
supplies the `forward` transform to WGS84. -/
structure Proj where
  convX : ℚ
  convY : ℚ
  forward : ℚ × ℚ → ℚ × ℚ

/-- Source (`downloadGeoTIFF`, lines after the fetch succeeds and the buffer
is decoded): reproject the bounding-box corners
`sw = projection.forward(box[0] * conv.x, box[1] * conv.y)` and
`ne = projection.forward(box[2] * conv.x, box[3] * conv.y)`, and return the
bands copied at native resolution
(`[...Array(rasters.length).keys()].map(i => Array.from(rasters[i]))`) with
`bounds = {north: ne.y, south: sw.y, east: ne.x, west: sw.x}`. -/
def downloadGeoTIFF (image : TiffImage) (projection : Proj) : GeoTiff :=
  let sw := projection.forward (image.boxXMin * projection.convX,
    image.boxYMin * projection.convY)
  let ne := projection.forward (image.boxXMax * projection.convX,
    image.boxYMax * projection.convY)
  { width := image.width
    height := image.height
    rasters := (List.range image.rasters.length).map fun i => (image.rasters[i]?).getD []
    bounds := { north := ne.2, south := sw.2, east := ne.1, west := sw.1 } }

theorem range_map_getD {α : Type} (l : List α) (d : α) :
    (List.range l.length).map (fun i => (l[i]?).getD d) = l := by
  apply List.ext_getElem
  · simp
  · intro i h1 h2
    have hi : i < l.length := h2
    have hr : i < (List.range l.length).length := by simpa using hi
    rw [List.getElem_map, List.getElem_range, List.getElem?_eq_getElem hi]
    rfl

/-- C8: for every successfully decoded image, `downloadGeoTIFF` returns every
raster band unchanged at the image's native width × height resolution, and a
bounds box obtained solely by reprojecting the corner coordinates: north and
east from the projected NE corner (`xMax`, `yMax` scaled by the per-axis
conversion parameters), south and west from the projected SW corner. -/
theorem downloadGeoTIFF_native_bands_and_corner_bounds
    (image : TiffImage) (projection : Proj) :
    (downloadGeoTIFF image projection).rasters = image.rasters ∧
    (downloadGeoTIFF image projection).width = image.width ∧
    (downloadGeoTIFF image projection).height = image.height ∧
    (downloadGeoTIFF image projection).bounds.north =
      (projection.forward (image.boxXMax * projection.convX,
        image.boxYMax * projection.convY)).2 ∧
    (downloadGeoTIFF image projection).bounds.east =
      (projection.forward (image.boxXMax * projection.convX,
        image.boxYMax * projection.convY)).1 ∧
    (downloadGeoTIFF image projection).bounds.south =
      (projection.forward (image.boxXMin * projection.convX,
        image.boxYMin * projection.convY)).2 ∧
    (downloadGeoTIFF image projection).bounds.west =
      (projection.forward (image.boxXMin * projection.convX,
        image.boxYMin * projection.convY)).1 :=
  ⟨range_map_getD image.rasters [], rfl, rfl, rfl, rfl, rfl, rfl⟩

end Andreado
